import Mathlib

/-!
# Verification of the audio streaming core

Shallow embedding of the audio streaming core of the music server:

* `http_streamer.py` — the queue stream mixer (`__get_queue_stream`), the
  audio source pipeline (`__get_audio_stream`) and the player-specific sox
  effect options (`__get_player_sox_options`);
* `server/providers/airplay/__init__.py` — the RAOP delivery driver
  (`AirplayStreamJob`) and the DACP control server (`_handle_dacp_request`).

Pure data transformations are translated directly from the source; external
subprocess behaviour (the sox silence-trim and crossfade helpers, the
process stdout byte streams) is abstracted as function parameters or, where
the repository does not contain the code, modelled from the specification
(each such definition carries a doc comment saying so).

PCM byte buffers are modelled as `List ℤ` (one entry per byte/sample; only
lengths, concatenation and element values matter to the claims).
-/

namespace MusicAssistant

/-! ## Player settings and `try_parse_int`

A player setting value, as read from `player.settings[...]`.  `absent`
models a missing/`None`/empty value (falsy in Python), `unparsable` a
non-empty string that does not parse as an integer (truthy in Python),
`int n` an integer value (truthy iff nonzero). -/

inductive SettingVal where
  | absent
  | unparsable
  | int (n : ℤ)
deriving DecidableEq, Repr

/-- Python truthiness of a setting value. -/
def SettingVal.truthy : SettingVal → Bool
  | .absent => false
  | .unparsable => true
  | .int n => n != 0

/-- Modelled from the spec: `try_parse_int` from the utilities module (the
`utils` module is not part of the sources); per the spec's boundary
behaviours, an absent or unparseable value yields the integer default 0, an
integer value is returned unchanged. -/
def try_parse_int : SettingVal → ℤ
  | .absent => 0
  | .unparsable => 0
  | .int n => n

/-! ## Sample-rate negotiation (`__get_queue_stream`, lines 95-102) -/

/-- Lines 95-98: `sample_rate = try_parse_int(player.settings['max_sample_rate'])`;
`if not sample_rate or sample_rate < 44100 or sample_rate > 384000: sample_rate = 96000`. -/
def negotiatedSampleRate (maxSr : SettingVal) : ℤ :=
  let sr := try_parse_int maxSr
  if sr = 0 ∨ sr < 44100 ∨ sr > 384000 then 96000 else sr

/-- Lines 96, 99-102: `fade_length = try_parse_int(player.settings["crossfade_duration"])`;
`fade_bytes = int(sample_rate * 4 * 2 * fade_length)` if `fade_length` is truthy,
else `int(sample_rate * 4 * 2 * 6)`. -/
def fadeBytesOf (sampleRate : ℤ) (crossDur : SettingVal) : ℤ :=
  let fadeLength := try_parse_int crossDur
  if fadeLength ≠ 0 then sampleRate * 4 * 2 * fadeLength else sampleRate * 4 * 2 * 6

/-- The `(chunksize, resample)` parameters that `__get_queue_stream` passes to
`__get_audio_stream` for each of the `n` queue items of a session:
`sample_rate` and `fade_bytes` are computed once (lines 95-102) before the
per-track loop, and the loop invokes `__get_audio_stream(..., chunksize=fade_bytes,
resample=sample_rate)` (lines 151-153) for every item, so the per-item call
parameters are the same for each item. -/
def queueStreamCallParams (maxSr crossDur : SettingVal) (n : ℕ) : List (ℤ × ℤ) :=
  let sampleRate := negotiatedSampleRate maxSr
  let fadeBytes := fadeBytesOf sampleRate crossDur
  List.replicate n (fadeBytes, sampleRate)

/-! ## Player sox effect options (`__get_player_sox_options`, lines 343-366)

The assembled sox effects chain is modelled as a list of stages, one entry
per `sox_options.append(...)` in the source (plus the `rate` stage appended
by `__get_audio_stream` when resampling is requested). -/

inductive SoxStage where
  | vol (gainDb : ℤ)
  | rate (target : ℤ)
  | extra (s : String)
deriving DecidableEq, Repr

/-- Modelled from the spec: the `TrackQuality` ordinals (the
`models.media_types` module is not part of the sources).  Only their
relative order and distinctness matter to the claims. -/
def FLAC_LOSSLESS_HI_RES_1 : ℤ := 7

/-- Modelled from the spec: see `FLAC_LOSSLESS_HI_RES_1`. -/
def FLAC_LOSSLESS_HI_RES_2 : ℤ := 8

/-- Modelled from the spec: see `FLAC_LOSSLESS_HI_RES_1`. -/
def FLAC_LOSSLESS_HI_RES_3 : ℤ := 9

/-- Lines 351-352: `if gain_correct != 0: sox_options.append('vol %s dB ')`. -/
def soxVolPart (gainCorrect : ℤ) : List SoxStage :=
  if gainCorrect ≠ 0 then [.vol gainCorrect] else []

/-- Lines 353-363: a `rate -v` downsample stage when the `max_sample_rate`
setting is truthy, parses to a nonzero integer, and the quality/threshold
`elif` chain of lines 358-363 selects one. -/
def soxRatePart (maxSr : SettingVal) (quality : ℤ) : List SoxStage :=
  if maxSr.truthy then
    let maxSampleRate := try_parse_int maxSr
    if maxSampleRate ≠ 0 then
      if quality > FLAC_LOSSLESS_HI_RES_3 ∧ maxSampleRate = 192000 then [.rate 192000]
      else if quality > FLAC_LOSSLESS_HI_RES_2 ∧ maxSampleRate = 96000 then [.rate 96000]
      else if quality > FLAC_LOSSLESS_HI_RES_1 ∧ maxSampleRate = 48000 then [.rate 48000]
      else []
    else []
  else []

/-- Lines 364-365: the player's extra `sox_options` setting appended
verbatim. -/
def soxExtraPart (extraOpts : Option String) : List SoxStage :=
  match extraOpts with
  | some s => [.extra s]
  | none => []

/-- `__get_player_sox_options` (lines 343-366): volume correction, optional
downsample stage, extra effect string, in source order. -/
def playerSoxOptions (gainCorrect : ℤ) (maxSr : SettingVal) (quality : ℤ)
    (extraOpts : Option String) : List SoxStage :=
  soxVolPart gainCorrect ++ soxRatePart maxSr quality ++ soxExtraPart extraOpts

/-- Python truthiness of the `resample` argument (`None` or `0` are falsy). -/
def resampleRequested : Option ℤ → Bool
  | none => false
  | some r => r != 0

/-- `__get_audio_stream` lines 292-296: the full sox chain for one stream is
the player options followed by `rate -v <resample>` when `resample` is
truthy. -/
def audioStreamSoxChain (playerOpts : List SoxStage) (resample : Option ℤ) : List SoxStage :=
  if resampleRequested resample then playerOpts ++ [.rate (resample.getD 0)] else playerOpts

/-- Whether an assembled chain contains a downsample stage `rate -v <target>`. -/
def hasRateStage (chain : List SoxStage) : Bool :=
  chain.any fun st => match st with
    | .rate _ => true
    | _ => false

/-! ## RAOP delivery driver (`AirplayStreamJob`) -/

/-- Python's `random.randint(lo, hi)` (used at line 185): returns an integer
in the closed interval `[lo, hi]`, both endpoints included; the random draw
is abstracted as a natural number mapped into the range. -/
def randint (lo hi draw : ℕ) : ℕ := lo + draw % (hi + 1 - lo)

/-- Line 185: `self.active_remote_id: str = str(randint(1000, 8000))`,
generated anew in `AirplayStreamJob.__init__` for every stream job. -/
def newActiveRemoteId (draw : ℕ) : ℕ := randint 1000 8000 draw

/-- The string form actually stored on the stream job. -/
def mkActiveRemoteId (draw : ℕ) : String := toString (newActiveRemoteId draw)

/-- The observable state of the `cliraop` helper process: `returncode` is
`none` while the process runs (`Popen.returncode is None`), and
`stdinCanWriteEof` models `stdin.can_write_eof()`. -/
structure CliraopProc where
  returncode : Option ℤ
  stdinCanWriteEof : Bool
deriving DecidableEq, Repr

/-- `AirplayStreamJob.running` (lines 190-193):
`self._cliraop_proc and self._cliraop_proc.returncode is None`. -/
def jobRunning : Option CliraopProc → Bool
  | none => false
  | some p => p.returncode.isNone

/-- The externally visible actions `write_eof` / `stop` can perform on the
helper process. -/
inductive RaopAction where
  | writeEofStdin
  | drainStdin
  | sendStopCommand
  | waitProcExit
deriving DecidableEq, Repr

/-- `AirplayStreamJob.write_eof` (lines 326-334): return immediately when not
running or stdin cannot take an EOF; otherwise `stdin.write_eof()` (closing
the write side), re-check the same condition (the state does not change in
between in this synchronous section), and `await stdin.drain()` suppressing
`BrokenPipeError`.  No wait on the process is performed. -/
def write_eof_actions (proc : Option CliraopProc) : List RaopAction :=
  match proc with
  | none => []
  | some p =>
    if p.returncode.isSome ∨ ¬p.stdinCanWriteEof then []
    else
      RaopAction.writeEofStdin ::
        (if p.returncode.isSome ∨ ¬p.stdinCanWriteEof then [] else [RaopAction.drainStdin])

/-- `AirplayStreamJob.stop` (lines 251-261), for contrast: sends `ACTION=STOP`
over the named pipe and then `await self._cliraop_proc.wait()`. -/
def stop_actions (proc : Option CliraopProc) : List RaopAction :=
  if jobRunning proc then [RaopAction.sendStopCommand, RaopAction.waitProcExit] else []

/-! ## Audio source pipeline (`__get_audio_stream`, lines 264-341)

The external decoder/effects subprocess is abstracted as the finite byte
list it writes on stdout (cancellation only changes that list, by
terminating the process early: the yield structure below is unaffected).
Provider stream-detail lookup is abstracted as a function
`provider × item_id → Option StreamDetails`. -/

/-- One entry of `queue_item.provider_ids`. -/
structure ProvMedia where
  provider : String
  item_id : String
  quality : ℤ
deriving DecidableEq, Repr

/-- The fields of the provider's stream-details mapping that
`__get_audio_stream` dispatches on: the `type` key (`url`, `file`,
`executable`, ...) and the `content_type` key. -/
structure StreamDetails where
  source_type : String
  content_type : String
deriving DecidableEq, Repr

/-- Stable insertion of one element into a quality-descending list: elements
of greater-or-equal quality stay in front (matching Python's stable
`sorted(..., key=itemgetter('quality'), reverse=True)`). -/
def insertByQualityDesc (x : ProvMedia) : List ProvMedia → List ProvMedia
  | [] => [x]
  | y :: ys => if y.quality ≥ x.quality then y :: insertByQualityDesc x ys else x :: y :: ys

/-- `sorted(queue_item.provider_ids, key=operator.itemgetter('quality'), reverse=True)`
(lines 270-271). -/
def sortByQualityDesc (provs : List ProvMedia) : List ProvMedia :=
  provs.foldl (fun acc x => insertByQualityDesc x acc) []

/-- Provider selection (lines 269-286): iterate the quality-sorted provider
list, skip providers that are not registered, take the first provider whose
`get_stream_details` returns a (truthy) result. -/
def selectStreamDetails (registered : String → Bool)
    (getDetails : String → String → Option StreamDetails)
    (provs : List ProvMedia) : Option StreamDetails :=
  go (sortByQualityDesc provs)
where
  go : List ProvMedia → Option StreamDetails
    | [] => none
    | pm :: rest =>
      if registered pm.provider then
        match getDetails pm.provider pm.item_id with
        | some sd => some sd
        | none => go rest
      else go rest

/-- The chunked read loop of lines 321-336, with `fuel` bounding the number
of iterations (a read consumes `chunksize` bytes, so `stream.length + 1`
iterations always suffice when `chunksize > 0`; for `chunksize = 0` the
Python loop never terminates and the model returns the empty prefix of its
output).  A read that returns fewer bytes than `chunksize` is yielded as
`(is_last := true, chunk)` and ends the loop; full reads are yielded as
`(false, chunk)`. -/
def readChunksFuel : ℕ → ℕ → List ℤ → List (Bool × List ℤ)
  | 0, _, _ => []
  | fuel + 1, chunksize, stream =>
    if stream.length < chunksize then [(true, stream)]
    else (false, stream.take chunksize) :: readChunksFuel fuel chunksize (stream.drop chunksize)

/-- The yielded `(is_last, bytes)` sequence of the read loop. -/
def readChunks (chunksize : ℕ) (stream : List ℤ) : List (Bool × List ℤ) :=
  readChunksFuel (stream.length + 1) chunksize stream

/-- Whether the selected stream details reach one of the subprocess branches
of lines 299-311 (`aac` via ffmpeg, `url`/`file` via sox, `executable`
piped into sox); any other `type` logs a warning and yields `(True, b'')`
(lines 312-315). -/
def hasStreamingOptions (sd : StreamDetails) : Bool :=
  sd.content_type == "aac" || sd.source_type == "url" || sd.source_type == "file" ||
    sd.source_type == "executable"

/-- `__get_audio_stream` (lines 264-338) as the sequence of `(is_last, bytes)`
pairs it yields: `procOut` abstracts the stdout byte stream of the spawned
decoder pipeline for the selected stream details. -/
def getAudioStream (registered : String → Bool)
    (getDetails : String → String → Option StreamDetails)
    (provs : List ProvMedia) (procOut : StreamDetails → List ℤ)
    (chunksize : ℕ) : List (Bool × List ℤ) :=
  match selectStreamDetails registered getDetails provs with
  | none => [(true, [])]
  | some sd =>
    if hasStreamingOptions sd then readChunks chunksize (procOut sd)
    else [(true, [])]

/-! ## DACP control server (`_handle_dacp_request`, lines 777-865)

The handler parses one HTTP/1.0-style request from the socket, looks up the
player whose active stream owns the request's `Active-Remote` id, dispatches
the path to a queue/volume command (a fire-and-forget task that does not
influence the response, lines 817-852), and writes a single fixed `204`
response (lines 854-863).  If parsing raises (`ValueError` from the
destructuring `split` calls) or no player matches, the connection is closed
without any response (`return` at line 813 / the `finally` block). -/

/-- A player entry of `self._players` as seen by the DACP handler:
`active_remote_id` is the id of its active stream, when one exists. -/
structure DacpPlayer where
  player_id : String
  active_remote_id : Option String
deriving DecidableEq, Repr

/-- The response the handler writes (lines 854-861), structured as status
line plus headers; `date` is `utc().strftime("%a, %-d %b %Y %H:%M:%S")`. -/
structure DacpResponse where
  statusLine : String
  headers : List (String × String)
deriving DecidableEq, Repr

/-- The fixed response of lines 855-861. -/
def dacpResponse (date : String) : DacpResponse :=
  { statusLine := "HTTP/1.0 204 No Content"
    headers := [("Date", date ++ " GMT"),
                ("DAAP-Server", "iTunes/7.6.2 (Windows; N;)"),
                ("Content-Type", "application/x-dmap-tagged"),
                ("Content-Length", "0"),
                ("Connection", "close")] }

/-- A nonempty separator, as head character plus remaining characters. -/
def sepList (sep : Char × List Char) : List Char := sep.1 :: sep.2

/-- Python `str.split(sep)` for a nonempty separator `sep`, with explicit
recursion fuel (every step consumes at least one character, so fuel equal
to the input length always suffices): split at every non-overlapping
occurrence, left to right; adjacent separators produce empty fields and
the empty input yields one empty field. -/
def splitOnCharsF (sep : Char × List Char) : ℕ → List Char → List (List Char)
  | _, [] => [[]]
  | 0, l => [l]
  | fuel + 1, c :: rest =>
    if (sepList sep).isPrefixOf (c :: rest) then
      [] :: splitOnCharsF sep fuel (rest.drop sep.2.length)
    else
      match splitOnCharsF sep fuel rest with
      | [] => [[c]]
      | g :: gs => (c :: g) :: gs

/-- Python `str.split(sep)`, nonempty separator. -/
def splitOnChars (sep : Char × List Char) (l : List Char) : List (List Char) :=
  splitOnCharsF sep l.length l

/-- `str.split(sep)` lifted to `String`. -/
def strSplitOn (sep : Char × List Char) (s : String) : List String :=
  (splitOnChars sep s.data).map String.mk

/-- Joining a list of strings with a separator (used to model Python's
`split(sep, 1)`: the first field plus the re-joined remainder). -/
def strConcatWith (sep : String) : List String → String
  | [] => ""
  | [x] => x
  | x :: xs => String.mk (x.data ++ sep.data ++ (strConcatWith sep xs).data)

/-- Python `str.strip()`: remove leading and trailing whitespace. -/
def strTrim (s : String) : String :=
  String.mk ((s.data.dropWhile Char.isWhitespace).reverse.dropWhile Char.isWhitespace).reverse

/-- `line.split(":", 1)` with destructuring (line 793): fails when the line
has no colon; key and value are stripped (line 794). -/
def parseHeaderLine (line : String) : Option (String × String) :=
  match strSplitOn (':', []) line with
  | [] => none
  | [_] => none
  | key :: rest => some (strTrim key, strTrim (strConcatWith ":" rest))

/-- The header-parsing loop of lines 792-794; any malformed line raises and
aborts the handler. -/
def parseHeaderLines : List String → Option (List (String × String))
  | [] => some []
  | l :: ls =>
    match parseHeaderLine l, parseHeaderLines ls with
    | some h, some hs => some (h :: hs)
    | _, _ => none

/-- `_, path, _ = headers_raw[0].split(" ")` (line 796): the request line
must consist of exactly three space-separated words. -/
def parseRequestLine (line : String) : Option String :=
  match strSplitOn (' ', []) line with
  | [_, path, _] => some path
  | _ => none

/-- Request parsing (lines 788-796): split the raw request on the first
blank line (`request.split("\r\n\r\n", 1)`, failing when absent), split the
header block on `\r\n`, parse the request line and the header lines. -/
def parseDacpRequest (raw : String) : Option (String × List (String × String)) :=
  match strSplitOn ('\r', ['\n', '\r', '\n']) raw with
  | [] => none
  | [_] => none
  | headerPart :: _ =>
    match strSplitOn ('\r', ['\n']) headerPart with
    | [] => none
    | requestLine :: headerLines =>
      match parseRequestLine requestLine, parseHeaderLines headerLines with
      | some path, some hs => some (path, hs)
      | _, _ => none

/-- `headers.get("Active-Remote")` (line 795); Python dicts keep the last
occurrence of a repeated header, hence the lookup on the reversed list. -/
def headerGet (hs : List (String × String)) (key : String) : Option String :=
  hs.reverse.lookup key

/-- Lines 797-804: the first player whose active stream's
`active_remote_id` equals the request's `Active-Remote` value (a player
without an active stream never matches, and a missing `Active-Remote`
header matches no player). -/
def findDacpPlayer (players : List DacpPlayer) (activeRemote : Option String) :
    Option DacpPlayer :=
  players.find? fun p =>
    match p.active_remote_id, activeRemote with
    | some id, some ar => id == ar
    | _, _ => false

/-- A nonempty literal separator as head character plus remaining
characters (the argument is never empty where used). -/
def strSep (s : String) : Char × List Char :=
  match s.data with
  | [] => (' ', [])
  | c :: cs => (c, cs)

/-- Python `sub in s` for a nonempty literal `sub`: substring containment
(the splitter finds at least one occurrence). -/
def containsSubstring (sub s : String) : Bool :=
  match strSplitOn (strSep sub) s with
  | _ :: _ :: _ => true
  | _ => false

/-- Python `s.split(sub, 1)[-1]` for a nonempty literal `sub`: everything
after the first occurrence of `sub` (the whole string when `sub` is
absent).  Re-joining the remaining fields of the full split with `sub`
reconstructs the remainder verbatim. -/
def splitAfterFirst (sub s : String) : String :=
  match strSplitOn (strSep sub) s with
  | [] => s
  | [_] => s
  | _ :: rest => strConcatWith sub rest

/-- Whether the path dispatch of lines 817-852 raises before the response
is written.  The recognised-path branches and the unknown-path `else` only
schedule background tasks (`self.mass.create_task(...)` receives an
already-constructed coroutine object, which cannot raise synchronously),
but the two `dmcp` volume branches convert their parameter with Python's
`float` (line 839) resp. `int` (line 844) *synchronously*: a non-numeric
value raises `ValueError` inside the `try` and the `finally` closes the
connection with no response.  The two numeric conversions are abstracted
as acceptor parameters `parseFloatOk` / `parseIntOk` (`false` =
`ValueError`); registry lookups (`mass.players.get`,
`player_queues.get`) are assumed to return registered objects.  The
branches appear in source order. -/
def dacpDispatchRaises (parseFloatOk parseIntOk : String → Bool) (path : String) : Bool :=
  if path == "/ctrl-int/1/nextitem" then false
  else if path == "/ctrl-int/1/previtem" then false
  else if path == "/ctrl-int/1/play" then false
  else if path == "/ctrl-int/1/playpause" then false
  else if path == "/ctrl-int/1/stop" then false
  else if path == "/ctrl-int/1/volumeup" then false
  else if path == "/ctrl-int/1/volumedown" then false
  else if path == "/ctrl-int/1/shuffle_songs" then false
  else if path == "/ctrl-int/1/pause" || path == "/ctrl-int/1/discrete-pause" then false
  else if containsSubstring "dmcp.device-volume=" path then
    !parseFloatOk (splitAfterFirst "dmcp.device-volume=" path)
  else if containsSubstring "dmcp.volume=" path then
    !parseIntOk (splitAfterFirst "dmcp.volume=" path)
  else false

/-- `_handle_dacp_request` (lines 777-865) as a function from the raw
request to the response written on the connection (`none` when the
connection is closed without a response): parse the request, match the
`Active-Remote` header against the players' active streams (`return` at
line 813 on no match), run the path dispatch — which writes no response
when a `dmcp` volume conversion raises (see `dacpDispatchRaises`) — and
otherwise write the fixed 204 response of lines 854-863. -/
def dacpHandler (parseFloatOk parseIntOk : String → Bool) (players : List DacpPlayer)
    (raw : String) (date : String) : Option DacpResponse :=
  match parseDacpRequest raw with
  | none => none
  | some (path, hs) =>
    match findDacpPlayer players (headerGet hs "Active-Remote") with
    | none => none
    | some _ =>
      if dacpDispatchRaises parseFloatOk parseIntOk path then none
      else some (dacpResponse date)

/-! ## Queue stream mixer (`__get_queue_stream`, lines 93-262)

The two silence-trim subprocesses (`sox ... silence 1 0.1 1%` and its
reversed variant, lines 168-171 and 199-202) are abstracted as function
parameters `trimHead` / `trimTail` of the mixer configuration: the claims
hold for every function the external tool may compute.  The loop state is
`last_fadeout_data` (the pending crossfade tail) and `prev_chunk`; each
incoming chunk of a track is classified by the `if`/`elif` chain of lines
156-236, exactly in source order. -/

/-- Python `l[-n:]` for `n > 0`: the last `n` elements (the whole list when
shorter).  `fade_bytes` is always positive in a mixer session
(`fadeBytesOf` multiplies a sample rate ≥ 44100 by a nonzero duration), so
the `n = 0` special case of Python slicing is never exercised. -/
def takeTail (n : ℕ) (l : List ℤ) : List ℤ := l.drop (l.length - n)

/-- Python `l[:-n]` for `n > 0`: everything but the last `n` elements
(empty when the list is shorter). -/
def dropTail (n : ℕ) (l : List ℤ) : List ℤ := l.take (l.length - n)

/-- Lines 172-177: after the leading silence-trim of `prev_chunk + chunk`,
if the trimmed buffer is shorter than `fade_bytes`, fall back to the
untrimmed buffer, dropping its first `fade_bytes` bytes only when it has at
least that many. -/
def headPart (trimHead : List ℤ → List ℤ) (fadeBytes : ℕ) (buf : List ℤ) : List ℤ :=
  let firstPart := trimHead buf
  if firstPart.length < fadeBytes then
    if buf.length ≥ fadeBytes then buf.drop fadeBytes else buf
  else firstPart

/-- Lines 199-208: after the trailing (reverse) silence-trim of
`prev_chunk + chunk`, if the trimmed buffer is shorter than `fade_bytes`,
fall back to the untrimmed buffer, keeping its first `fade_bytes` bytes
only when it has at least that many. -/
def tailPart (trimTail : List ℤ → List ℤ) (fadeBytes : ℕ) (buf : List ℤ) : List ℤ :=
  let lastPart := trimTail buf
  if lastPart.length < fadeBytes then
    if buf.length ≥ fadeBytes then buf.take fadeBytes else buf
  else lastPart

/-- Modelled from the spec: the crossfade helper `__crossfade_pcm_parts`
(lines 396-422) delegates the DSP to the external sox tool (`fade t`,
`reverse fade t reverse`, and `-m` unit-gain mixing); per the spec it
produces a buffer in which the outgoing tail is ramped down, the incoming
head ramped up, and the two are mixed (summed) at unit gain, with the
length of its equal-length inputs. -/
def fadeInRamp (xs : List ℤ) : List ℤ :=
  List.zipWith (fun (i : ℕ) (x : ℤ) => x * (i : ℤ) / (xs.length : ℤ)) (List.range xs.length) xs

/-- Modelled from the spec: see `fadeInRamp`. -/
def fadeOutRamp (xs : List ℤ) : List ℤ :=
  List.zipWith (fun (i : ℕ) (x : ℤ) => x * ((xs.length : ℤ) - (i : ℤ)) / (xs.length : ℤ))
    (List.range xs.length) xs

/-- Modelled from the spec: the output of `__crossfade_pcm_parts` — the
faded-out tail mixed sample-wise with the faded-in head. -/
def crossfadePcm (fadeInPart fadeOutPart : List ℤ) : List ℤ :=
  List.zipWith (fun a b => a + b) (fadeOutRamp fadeOutPart) (fadeInRamp fadeInPart)

/-- Per-session mixer configuration: `fade_bytes`, the queue's
`crossfade_enabled` flag, and the two silence-trim subprocess behaviours. -/
structure MixCfg where
  fadeBytes : ℕ
  crossfadeEnabled : Bool
  trimHead : List ℤ → List ℤ
  trimTail : List ℤ → List ℤ

/-- Python truthiness of `prev_chunk` (`None` and `b''` are falsy). -/
def optTruthy : Option (List ℤ) → Bool
  | none => false
  | some l => l != []

/-- One iteration of the chunk loop (lines 154-236): given the chunk index
`i` (`cur_chunk`), the buffered `prev` chunk, the pending `tail`
(`last_fadeout_data`), the incoming chunk, and `is_last_chunk`, return the
bytes written to the encoder's stdin together with the updated `prev` and
`tail`. The branches appear exactly in source order:
first part (lines 157-164), crossfade head (lines 166-194), last part
(lines 196-225), middle part (lines 227-236). -/
def stepChunk (cfg : MixCfg) (i : ℕ) (prev : Option (List ℤ)) (tail : List ℤ)
    (chunk : List ℤ) (islast : Bool) : List ℤ × Option (List ℤ) × List ℤ :=
  if i ≤ 2 ∧ tail = [] then
    (chunk, prev, tail)
  else if i = 1 ∧ tail ≠ [] then
    ([], some chunk, tail)
  else if i = 2 ∧ tail ≠ [] then
    let firstPart := headPart cfg.trimHead cfg.fadeBytes (prev.getD [] ++ chunk)
    let fadeInPart := firstPart.take cfg.fadeBytes
    let remainingBytes := firstPart.drop cfg.fadeBytes
    (crossfadePcm fadeInPart tail ++ remainingBytes, none, [])
  else if optTruthy prev ∧ islast then
    let lastPart := tailPart cfg.trimTail cfg.fadeBytes (prev.getD [] ++ chunk)
    if ¬cfg.crossfadeEnabled then (lastPart, prev, tail)
    else (dropTail cfg.fadeBytes lastPart, prev, takeTail cfg.fadeBytes lastPart)
  else
    match prev with
    | some p => (p, some chunk, tail)
    | none => ([], some chunk, tail)

/-- The chunk loop over one track's chunk sequence, starting at chunk index
`i`: returns the concatenation of everything written for the track and the
final pending tail.  The last element of `chunks` is the `is_last_chunk`
one (`__get_audio_stream` flags exactly its final yield as last). -/
def runChunks (cfg : MixCfg) : ℕ → Option (List ℤ) → List ℤ → List (List ℤ) →
    List ℤ × List ℤ
  | _, _, tail, [] => ([], tail)
  | i, prev, tail, chunk :: rest =>
    let step := stepChunk cfg i prev tail chunk rest.isEmpty
    let next := runChunks cfg (i + 1) step.2.1 step.2.2 rest
    (step.1 ++ next.1, next.2)

/-- Per-track processing (lines 145-236): `cur_chunk` starts at 1 and
`prev_chunk` at `None` for every track. -/
def processTrack (cfg : MixCfg) (tail0 : List ℤ) (chunks : List (List ℤ)) :
    List ℤ × List ℤ :=
  runChunks cfg 1 none tail0 chunks

/-- The per-track loop of the session (lines 130-247), threading
`last_fadeout_data` from track to track. -/
def mixTracks (cfg : MixCfg) (tail0 : List ℤ) : List (List (List ℤ)) → List ℤ × List ℤ
  | [] => ([], tail0)
  | t :: ts =>
    let cur := processTrack cfg tail0 t
    let next := mixTracks cfg cur.2 ts
    (cur.1 ++ next.1, next.2)

/-- The whole PCM stream a session writes to the encoder's stdin: the
per-track writes followed by the final flush of a residual pending tail
(lines 248-251; writing an empty residual tail is a no-op). -/
def mixQueue (cfg : MixCfg) (tracks : List (List (List ℤ))) : List ℤ :=
  let res := mixTracks cfg [] tracks
  res.1 ++ res.2

/-- A full session parameterised by the player settings, per lines 93-102:
the negotiated sample rate and `fade_bytes` are derived from the
`max_sample_rate` and `crossfade_duration` settings. -/
def queueStreamOutput (maxSr crossDur : SettingVal) (crossfadeEnabled : Bool)
    (trimHead trimTail : List ℤ → List ℤ) (tracks : List (List (List ℤ))) : List ℤ :=
  let fadeBytes := (fadeBytesOf (negotiatedSampleRate maxSr) crossDur).toNat
  mixQueue ⟨fadeBytes, crossfadeEnabled, trimHead, trimTail⟩ tracks

/-- One item's silence-trimmed stream: what the mixer's non-crossfading
path writes for the item in isolation (all chunks in order, the final two
combined through the trailing silence-trim of lines 199-208); "plain
concatenation of the silence-trimmed items" is the concatenation of these. -/
def trimmedItemOutput (fadeBytes : ℕ) (trimHead trimTail : List ℤ → List ℤ)
    (chunks : List (List ℤ)) : List ℤ :=
  (processTrack ⟨fadeBytes, false, trimHead, trimTail⟩ [] chunks).1

/-- The plain concatenation of the silence-trimmed items of a session with
the given settings. -/
def plainTrimmedConcat (maxSr crossDur : SettingVal)
    (trimHead trimTail : List ℤ → List ℤ) (tracks : List (List (List ℤ))) : List ℤ :=
  let fadeBytes := (fadeBytesOf (negotiatedSampleRate maxSr) crossDur).toNat
  (tracks.map (trimmedItemOutput fadeBytes trimHead trimTail)).flatten

/-! ## Theorems -/

/-- C9, counterexample: `random.randint(1000, 8000)` includes the upper
endpoint, so the draw mapping to 8000 yields an id outside `[1000, 8000)`. -/
theorem active_remote_id_counterexample :
    newActiveRemoteId 7000 = 8000 ∧ ¬ newActiveRemoteId 7000 < 8000 := by
  decide

/-- C9 (amended): every RAOP stream job is created with a freshly generated
`active_remote_id` whose integer value lies in the closed interval
`[1000, 8000]`, i.e. `1000 ≤ id ≤ 8000` (Python's `randint` includes both
endpoints), generated anew for each session. -/
theorem active_remote_id_range (draw : ℕ) :
    1000 ≤ newActiveRemoteId draw ∧ newActiveRemoteId draw ≤ 8000 ∧
      mkActiveRemoteId draw = toString (newActiveRemoteId draw) := by
  refine ⟨?_, ?_, rfl⟩ <;>
    · unfold newActiveRemoteId randint
      omega

/-- C8, counterexample: on a running helper process with writable stdin,
`write_eof` writes EOF and drains the stdin buffer but never waits for the
process to exit (contrast `stop_actions`, which does). -/
theorem write_eof_no_wait_counterexample :
    jobRunning (some ⟨none, true⟩) = true ∧
    write_eof_actions (some ⟨none, true⟩) =
      [RaopAction.writeEofStdin, RaopAction.drainStdin] ∧
    RaopAction.waitProcExit ∉ write_eof_actions (some ⟨none, true⟩) := by
  decide

/-- C8 (amended): for every call to `write_eof` on a RAOP delivery driver:
if the helper process has already exited it is a no-op; otherwise (process
running, stdin accepting EOF) it closes the helper's stdin by writing EOF
and drains the stdin buffer, but it does not wait for the helper process to
exit before returning. -/
theorem write_eof_behavior (p : CliraopProc) :
    (p.returncode.isSome = true → write_eof_actions (some p) = []) ∧
    (p.returncode = none → p.stdinCanWriteEof = true →
      write_eof_actions (some p) = [RaopAction.writeEofStdin, RaopAction.drainStdin]) ∧
    RaopAction.waitProcExit ∉ write_eof_actions (some p) := by
  obtain ⟨rc, ce⟩ := p
  cases rc <;> cases ce <;> simp [write_eof_actions]

/-- C8 witness: `write_eof_behavior` applied to an exited process. -/
theorem write_eof_behavior_witness :
    write_eof_actions (some ⟨some 0, true⟩) = [] :=
  (write_eof_behavior ⟨some 0, true⟩).1 (by decide)

/-- C10: in the queue mixer, a track whose chunk sequence ends at index 1
or 2 while no crossfade tail is pending has each chunk (including the
terminal one) written to the encoder unmodified — independently of the
silence-trim behaviour (no trimming is applied) — and leaves no pending
fadeout tail, for any `fade_bytes` and even when crossfade is enabled. -/
theorem short_track_chunks_passthrough (fadeBytes : ℕ) (enabled : Bool)
    (trimHead trimTail : List ℤ → List ℤ) (c1 c2 : List ℤ) :
    processTrack ⟨fadeBytes, enabled, trimHead, trimTail⟩ [] [c1] = (c1, []) ∧
    processTrack ⟨fadeBytes, enabled, trimHead, trimTail⟩ [] [c1, c2] = (c1 ++ c2, []) := by
  constructor <;> simp [processTrack, runChunks, stepChunk]

/-- C5, counterexample: when the untrimmed buffer itself is shorter than
`fade_bytes`, the head fallback keeps the whole untrimmed buffer instead of
"the bytes after the first `fade_bytes`" (which would be empty): with a
trim that strips everything, `fade_bytes = 2` and untrimmed buffer `[5]`,
the code produces `[5]`, not `List.drop 2 [5] = []`. -/
theorem head_fallback_counterexample :
    headPart (fun _ => []) 2 [5] = [5] ∧ List.drop 2 [5] = ([] : List ℤ) ∧
      ([5] : List ℤ) ≠ [] := by
  decide

/-- C5 (amended): for every head or tail buffer processed by the mixer, if
the silence-trimmed result is shorter than `fade_bytes`, the mixer falls
back to the untrimmed buffer cut at the fade boundary — head: keep the
bytes after the first `fade_bytes` when the untrimmed buffer has at least
`fade_bytes` bytes, otherwise keep the whole untrimmed buffer; tail: keep
only the first `fade_bytes` bytes (the whole buffer when shorter) — and
this fallback is total for buffers of any length, including those shorter
than `fade_bytes`. -/
theorem trim_fallback_cut (trimHead trimTail : List ℤ → List ℤ) (fadeBytes : ℕ)
    (buf : List ℤ)
    (h1 : (trimHead buf).length < fadeBytes) (h2 : (trimTail buf).length < fadeBytes) :
    headPart trimHead fadeBytes buf =
      (if fadeBytes ≤ buf.length then buf.drop fadeBytes else buf) ∧
    tailPart trimTail fadeBytes buf = buf.take fadeBytes := by
  constructor
  · unfold headPart
    rw [if_pos h1]
  · unfold tailPart
    rw [if_pos h2]
    split
    · rfl
    · exact (List.take_of_length_le (by omega)).symm

/-- C5 witness: `trim_fallback_cut` on a concrete buffer and trim. -/
theorem trim_fallback_cut_witness :
    headPart (fun _ => ([] : List ℤ)) 2 [5, 7, 9] = [9] ∧
    tailPart (fun _ => ([] : List ℤ)) 2 [5, 7, 9] = [5, 7] := by
  have h := trim_fallback_cut (fun _ => []) (fun _ => []) 2 [5, 7, 9]
    (by decide) (by decide)
  simpa using h

/-- C2: at the start of every queue mixer session, an absent, unparseable
or out-of-`[44100, 384000]` `max_sample_rate` setting negotiates 96000;
an in-range setting is used as configured; and the negotiated rate is the
`resample` argument passed to the source pipeline for every item of the
session. -/
theorem sample_rate_negotiation (v : ℤ) (maxSr crossDur : SettingVal) (n : ℕ) :
    negotiatedSampleRate .absent = 96000 ∧
    negotiatedSampleRate .unparsable = 96000 ∧
    ((v < 44100 ∨ v > 384000) → negotiatedSampleRate (.int v) = 96000) ∧
    (44100 ≤ v → v ≤ 384000 → negotiatedSampleRate (.int v) = v) ∧
    (∀ p ∈ queueStreamCallParams maxSr crossDur n, p.2 = negotiatedSampleRate maxSr) := by
  refine ⟨by decide, by decide, ?_, ?_, ?_⟩
  · intro h
    simp only [negotiatedSampleRate, try_parse_int]
    split
    · rfl
    · omega
  · intro h1 h2
    simp only [negotiatedSampleRate, try_parse_int]
    split
    · omega
    · rfl
  · intro p hp
    unfold queueStreamCallParams at hp
    have := List.eq_of_mem_replicate hp
    rw [this]

/-- Helper: `hasRateStage` distributes over list append. -/
theorem hasRateStage_append (a b : List SoxStage) :
    hasRateStage (a ++ b) = (hasRateStage a || hasRateStage b) := by
  unfold hasRateStage
  exact List.any_append

/-- Helper: the downsample part of the player's sox options is nonempty
exactly under the quality/threshold table of lines 358-363. -/
theorem soxRatePart_iff (maxSr : SettingVal) (q : ℤ) :
    hasRateStage (soxRatePart maxSr q) = true ↔
      ((try_parse_int maxSr = 192000 ∧ q > FLAC_LOSSLESS_HI_RES_3) ∨
       (try_parse_int maxSr = 96000 ∧ q > FLAC_LOSSLESS_HI_RES_2) ∨
       (try_parse_int maxSr = 48000 ∧ q > FLAC_LOSSLESS_HI_RES_1)) := by
  rcases maxSr with _ | _ | m
  · simp [soxRatePart, SettingVal.truthy, try_parse_int, hasRateStage]
  · simp [soxRatePart, SettingVal.truthy, try_parse_int, hasRateStage]
  · by_cases hm : m = 0
    · subst hm
      simp [soxRatePart, SettingVal.truthy, try_parse_int, hasRateStage]
    · simp only [soxRatePart, SettingVal.truthy, try_parse_int]
      rw [if_pos (by simp [hm]), if_pos hm]
      split_ifs with h1 h2 h3 <;>
        simp only [FLAC_LOSSLESS_HI_RES_1, FLAC_LOSSLESS_HI_RES_2,
          FLAC_LOSSLESS_HI_RES_3] at * <;>
        simp [hasRateStage] <;> omega

/-- C6: the assembled sox effects chain for a `(player, streamdetails)`
pair contains a downsample stage `rate -v <target>` exactly when resampling
is requested by the caller (a truthy `resample` argument), or when the
item's quality ordinal exceeds the threshold matching the player's
`max_sample_rate`: quality above `HI_RES_3` for 192000, above `HI_RES_2`
for 96000, above `HI_RES_1` for 48000. -/
theorem rate_stage_iff (gainCorrect : ℤ) (maxSr : SettingVal) (quality : ℤ)
    (extraOpts : Option String) (resample : Option ℤ) :
    hasRateStage
        (audioStreamSoxChain (playerSoxOptions gainCorrect maxSr quality extraOpts) resample)
        = true ↔
      (resampleRequested resample = true ∨
        (try_parse_int maxSr = 192000 ∧ quality > FLAC_LOSSLESS_HI_RES_3) ∨
        (try_parse_int maxSr = 96000 ∧ quality > FLAC_LOSSLESS_HI_RES_2) ∨
        (try_parse_int maxSr = 48000 ∧ quality > FLAC_LOSSLESS_HI_RES_1)) := by
  have hvol : hasRateStage (soxVolPart gainCorrect) = false := by
    unfold soxVolPart hasRateStage
    split <;> rfl
  have hextra : hasRateStage (soxExtraPart extraOpts) = false := by
    unfold soxExtraPart hasRateStage
    cases extraOpts <;> rfl
  unfold audioStreamSoxChain playerSoxOptions
  by_cases hr : resampleRequested resample = true
  · rw [if_pos hr, hasRateStage_append]
    simp [hasRateStage, hr]
  · rw [if_neg hr]
    rw [hasRateStage_append, hasRateStage_append, hvol, hextra]
    simp only [Bool.false_or, Bool.or_false]
    rw [soxRatePart_iff]
    simp [hr]

/-- Helper: for positive `chunksize` and sufficient fuel, the read loop
yields exactly one `is_last=true` pair, as its final element, carrying
fewer than `chunksize` bytes; all earlier pairs are `is_last=false`. -/
theorem readChunksFuel_spec (cs : ℕ) (hcs : 0 < cs) :
    ∀ (fuel : ℕ) (s : List ℤ), s.length < fuel →
      (readChunksFuel fuel cs s).countP (fun p => p.1) = 1 ∧
      (∃ lastChunk, (readChunksFuel fuel cs s).getLast? = some (true, lastChunk) ∧
        lastChunk.length < cs) ∧
      (∀ p ∈ (readChunksFuel fuel cs s).dropLast, p.1 = false) := by
  intro fuel
  induction fuel with
  | zero =>
    intro s h
    omega
  | succ n ih =>
    intro s h
    by_cases hlt : s.length < cs
    · refine ⟨?_, ⟨s, ?_, hlt⟩, ?_⟩ <;> simp [readChunksFuel, hlt]
    · have hdrop : (s.drop cs).length < n := by
        simp only [List.length_drop]
        omega
      obtain ⟨ih1, ⟨lastChunk, ihl, ihlen⟩, ih3⟩ := ih (s.drop cs) hdrop
      rcases hr : readChunksFuel n cs (s.drop cs) with _ | ⟨r, rs⟩
      · rw [hr] at ihl
        simp at ihl
      · rw [hr] at ih1 ihl ih3
        refine ⟨?_, ⟨lastChunk, ?_, ihlen⟩, ?_⟩
        · simp only [readChunksFuel, if_neg hlt, hr, List.countP_cons]
          simpa [List.countP_cons] using ih1
        · simp only [readChunksFuel, if_neg hlt, hr, List.getLast?_cons_cons]
          exact ihl
        · simp only [readChunksFuel, if_neg hlt, hr, List.dropLast_cons₂]
          intro p hp
          rcases List.mem_cons.mp hp with h1 | h2
          · rw [h1]
          · exact ih3 p h2

/-- C1: every invocation of the audio source stream generator — for any
provider list, any stream-details responses, any subprocess output (hence
any cancel-token state, which only changes that output) and any positive
chunk size — yields exactly one `(is_last=true, bytes)` pair, that pair is
the last one yielded and carries fewer than `chunk_size` bytes (possibly
zero); when no provider returns stream details the generator yields
exactly the single pair `(true, ∅)`. -/
theorem audio_stream_terminal_chunk (registered : String → Bool)
    (getDetails : String → String → Option StreamDetails)
    (provs : List ProvMedia) (procOut : StreamDetails → List ℤ)
    (chunksize : ℕ) (hcs : 0 < chunksize) :
    (getAudioStream registered getDetails provs procOut chunksize).countP (fun p => p.1) = 1 ∧
    (∃ lastChunk,
      (getAudioStream registered getDetails provs procOut chunksize).getLast? =
          some (true, lastChunk) ∧
        lastChunk.length < chunksize) ∧
    (∀ p ∈ (getAudioStream registered getDetails provs procOut chunksize).dropLast,
      p.1 = false) ∧
    (selectStreamDetails registered getDetails provs = none →
      getAudioStream registered getDetails provs procOut chunksize = [(true, [])]) := by
  unfold getAudioStream
  cases hsel : selectStreamDetails registered getDetails provs with
  | none =>
    refine ⟨?_, ⟨[], ?_, hcs⟩, ?_, fun _ => rfl⟩ <;> simp
  | some sd =>
    refine ⟨?_, ?_, ?_, fun hno => Option.noConfusion hno⟩ <;>
      by_cases hopt : hasStreamingOptions sd = true
    · have := (readChunksFuel_spec chunksize hcs ((procOut sd).length + 1) (procOut sd)
        (Nat.lt_succ_self _)).1
      simpa [hopt, readChunks] using this
    · simp [hopt]
    · have := (readChunksFuel_spec chunksize hcs ((procOut sd).length + 1) (procOut sd)
        (Nat.lt_succ_self _)).2.1
      simpa [hopt, readChunks] using this
    · refine ⟨[], ?_, hcs⟩
      simp [hopt]
    · have := (readChunksFuel_spec chunksize hcs ((procOut sd).length + 1) (procOut sd)
        (Nat.lt_succ_self _)).2.2
      simpa [hopt, readChunks] using this
    · simp [hopt]

/-- C1 witness: `audio_stream_terminal_chunk` on a queue item with no
available providers. -/
theorem audio_stream_terminal_chunk_witness :
    getAudioStream (fun _ => false) (fun _ _ => none) [] (fun _ => []) 2 = [(true, [])] :=
  (audio_stream_terminal_chunk (fun _ => false) (fun _ _ => none) [] (fun _ => []) 2
    (by decide)).2.2.2 (by rfl)

/-- C7, counterexample: two well-formed DACP requests that receive no
response.  First, a request whose `Active-Remote` header matches no
player's active stream is dropped at line 813 without any response being
written.  Second, a request that parses and matches an active stream but
carries a non-numeric `dmcp.device-volume` value hits the synchronous
`float` conversion of line 839 (here instantiated with an acceptor that
rejects `abc`, as Python's `float("abc")` raises `ValueError`) and the
connection closes with no response.  So not every inbound request receives
the 204 response. -/
theorem dacp_no_response_counterexample :
    dacpHandler (fun s => s != "abc") (fun s => s != "abc") [⟨"p1", some "9999"⟩]
        "GET /ctrl-int/1/nextitem HTTP/1.1\r\nActive-Remote: 1234\r\n\r\n"
        "Mon, 1 Jan 2024 00:00:00" = none ∧
    dacpHandler (fun s => s != "abc") (fun s => s != "abc") [⟨"p1", some "1234"⟩]
        "GET /status?dmcp.device-volume=abc HTTP/1.1\r\nActive-Remote: 1234\r\n\r\n"
        "Mon, 1 Jan 2024 00:00:00" = none := by
  constructor <;> rfl

/-- C7 (amended): for every inbound DACP request that parses as an
HTTP-style request, whose `Active-Remote` header matches a player with an
active stream, and whose path does not hit the synchronous `dmcp` volume
conversion error — including requests with unrecognised paths — the
connection receives a response whose status line is
`HTTP/1.0 204 No Content`, with `Content-Length: 0`, `Connection: close`,
`Content-Type: application/x-dmap-tagged`, and a `Date` header ending in
`GMT`;  a request that fails to parse, whose `Active-Remote` matches no
active stream, or whose `dmcp.device-volume` / `dmcp.volume` value is not
numeric (the `float`/`int` call of line 839/844 raises `ValueError`),
receives no response. -/
theorem dacp_always_204 (parseFloatOk parseIntOk : String → Bool)
    (players : List DacpPlayer) (raw date path : String)
    (hs : List (String × String)) (p : DacpPlayer)
    (hparse : parseDacpRequest raw = some (path, hs))
    (hfind : findDacpPlayer players (headerGet hs "Active-Remote") = some p)
    (hnoraise : dacpDispatchRaises parseFloatOk parseIntOk path = false) :
    dacpHandler parseFloatOk parseIntOk players raw date = some (dacpResponse date) ∧
    (dacpResponse date).statusLine = "HTTP/1.0 204 No Content" ∧
    ("Content-Length", "0") ∈ (dacpResponse date).headers ∧
    ("Connection", "close") ∈ (dacpResponse date).headers ∧
    ("Content-Type", "application/x-dmap-tagged") ∈ (dacpResponse date).headers ∧
    ("Date", date ++ " GMT") ∈ (dacpResponse date).headers := by
  refine ⟨?_, rfl, ?_, ?_, ?_, ?_⟩
  · simp [dacpHandler, hparse, hfind, hnoraise]
  · simp [dacpResponse]
  · simp [dacpResponse]
  · simp [dacpResponse]
  · simp [dacpResponse]

/-- C7 witness: `dacp_always_204` on a concrete request with an
unrecognised path, a matching `Active-Remote`, and no volume parameter. -/
theorem dacp_always_204_witness :
    dacpHandler (fun _ => true) (fun _ => true) [⟨"p1", some "1234"⟩]
        "GET /some-unknown-path HTTP/1.1\r\nActive-Remote: 1234\r\n\r\n"
        "Mon, 1 Jan 2024 00:00:00" =
      some (dacpResponse "Mon, 1 Jan 2024 00:00:00") :=
  (dacp_always_204 (fun _ => true) (fun _ => true) [⟨"p1", some "1234"⟩]
      "GET /some-unknown-path HTTP/1.1\r\nActive-Remote: 1234\r\n\r\n"
      "Mon, 1 Jan 2024 00:00:00" "/some-unknown-path"
      [("Active-Remote", "1234")] ⟨"p1", some "1234"⟩ (by rfl) (by rfl) (by rfl)).1

/-- C2 witness: `sample_rate_negotiation` at concrete rates. -/
theorem sample_rate_negotiation_witness :
    negotiatedSampleRate (.int 50000) = 50000 ∧
      negotiatedSampleRate (.int 22050) = 96000 :=
  ⟨(sample_rate_negotiation 50000 .absent .absent 0).2.2.2.1 (by decide) (by decide),
   (sample_rate_negotiation 22050 .absent .absent 0).2.2.1 (Or.inl (by decide))⟩

/-- Helper: with crossfade disabled, a mixer step entered with an empty
pending tail leaves the pending tail empty, whatever the chunk index, the
buffered previous chunk, the chunk, or its last-flag. -/
theorem stepChunk_tail_nil (fb : ℕ) (th tt : List ℤ → List ℤ) (i : ℕ)
    (prev : Option (List ℤ)) (chunk : List ℤ) (islast : Bool) :
    (stepChunk ⟨fb, false, th, tt⟩ i prev [] chunk islast).2.2 = [] := by
  unfold stepChunk
  cases prev <;> split_ifs <;> simp_all

/-- Helper: with crossfade disabled, the per-track chunk loop started with
an empty pending tail ends with an empty pending tail. -/
theorem runChunks_tail_nil (fb : ℕ) (th tt : List ℤ → List ℤ) :
    ∀ (chunks : List (List ℤ)) (i : ℕ) (prev : Option (List ℤ)),
      (runChunks ⟨fb, false, th, tt⟩ i prev [] chunks).2 = [] := by
  intro chunks
  induction chunks with
  | nil =>
    intro i prev
    rfl
  | cons c rest ih =>
    intro i prev
    simp only [runChunks]
    rw [stepChunk_tail_nil]
    exact ih (i + 1) _

/-- Helper: with crossfade disabled, the whole session never accumulates a
pending tail across tracks. -/
theorem mixTracks_tail_nil (fb : ℕ) (th tt : List ℤ → List ℤ) :
    ∀ tracks, (mixTracks ⟨fb, false, th, tt⟩ [] tracks).2 = [] := by
  intro tracks
  induction tracks with
  | nil => rfl
  | cons t ts ih =>
    simp only [mixTracks, processTrack]
    rw [runChunks_tail_nil]
    exact ih

/-- C3: in every queue mixer session with `crossfade_enabled = false`, the
pending crossfade tail is never retained: every single step entered with an
empty stored fadeout buffer leaves it empty (so it is empty at every point
of the session), and at queue exhaustion no residual tail exists, so the
session output is exactly the per-track writes with no final tail flush. -/
theorem no_crossfade_no_pending_tail (fb : ℕ) (th tt : List ℤ → List ℤ)
    (tracks : List (List (List ℤ))) (i : ℕ) (prev : Option (List ℤ))
    (chunk : List ℤ) (islast : Bool) :
    (stepChunk ⟨fb, false, th, tt⟩ i prev [] chunk islast).2.2 = [] ∧
    (mixTracks ⟨fb, false, th, tt⟩ [] tracks).2 = [] ∧
    mixQueue ⟨fb, false, th, tt⟩ tracks = (mixTracks ⟨fb, false, th, tt⟩ [] tracks).1 := by
  refine ⟨stepChunk_tail_nil fb th tt i prev chunk islast, mixTracks_tail_nil fb th tt tracks, ?_⟩
  simp only [mixQueue]
  rw [mixTracks_tail_nil, List.append_nil]

/-- Helper: with crossfade disabled the mixer output is compositional — the
session writes are the concatenation of the isolated per-item outputs. -/
theorem mixTracks_off_concat (fb : ℕ) (th tt : List ℤ → List ℤ) :
    ∀ tracks, (mixTracks ⟨fb, false, th, tt⟩ [] tracks).1 =
      (tracks.map (trimmedItemOutput fb th tt)).flatten := by
  intro tracks
  induction tracks with
  | nil => rfl
  | cons t ts ih =>
    simp only [mixTracks, List.map_cons, List.flatten_cons]
    rw [show (processTrack ⟨fb, false, th, tt⟩ [] t).2 = [] from runChunks_tail_nil fb th tt t 1 none]
    rw [ih]
    rfl

/-- C4 (amended): when crossfade is disabled (`crossfade_enabled = false`),
the PCM stream the mixer writes to its encoder equals the plain
concatenation of the silence-trimmed items, with no crossfade mixing
applied between consecutive items.  (A crossfade duration of 0 alone does
not disable mixing: the fade length then merely defaults to 6 seconds.) -/
theorem crossfade_disabled_plain_concat (maxSr crossDur : SettingVal)
    (th tt : List ℤ → List ℤ) (tracks : List (List (List ℤ))) :
    queueStreamOutput maxSr crossDur false th tt tracks =
      plainTrimmedConcat maxSr crossDur th tt tracks := by
  simp only [queueStreamOutput, plainTrimmedConcat, mixQueue]
  rw [mixTracks_tail_nil, List.append_nil, mixTracks_off_concat]

/-- Helper: the crossfade output has the common length of its inputs. -/
theorem crossfadePcm_length (a b : List ℤ) :
    (crossfadePcm a b).length = min b.length a.length := by
  simp [crossfadePcm, fadeInRamp, fadeOutRamp]

/-- Helper: with crossfade enabled and no incoming tail, a track of three
full chunks plus an empty terminal chunk writes its first two chunks and
stores the (trim-stable) third chunk as the pending fadeout tail. -/
theorem processTrack_four_on (fb : ℕ) (hfb : 0 < fb) (th tt : List ℤ → List ℤ)
    (A : List ℤ) (hA : A.length = fb) (htt : tt A = A) :
    processTrack ⟨fb, true, th, tt⟩ [] [A, A, A, []] = (A ++ A, A) := by
  have hAne : A ≠ [] := by
    intro h
    rw [h] at hA
    simp at hA
    omega
  simp [processTrack, runChunks, stepChunk, tailPart, optTruthy, dropTail, takeTail,
    hA, hAne, htt]

/-- Helper: with crossfade enabled and a pending tail, a track of two full
chunks plus an empty terminal chunk defers its first chunk, crossfades the
(trim-stable) head with the pending tail, and clears the tail. -/
theorem processTrack_three_tail_on (fb : ℕ) (hfb : 0 < fb) (th tt : List ℤ → List ℤ)
    (A : List ℤ) (hA : A.length = fb) (hth : th (A ++ A) = A ++ A) :
    processTrack ⟨fb, true, th, tt⟩ A [A, A, []] = (crossfadePcm A A ++ A, []) := by
  have hAne : A ≠ [] := by
    intro h
    rw [h] at hA
    simp at hA
    omega
  have h2fb : ¬ A.length + A.length < fb := by
    simp only [hA]
    omega
  have htake : (A ++ A).take fb = A := by
    rw [← hA]
    exact List.take_left A A
  have hdrop : (A ++ A).drop fb = A := by
    rw [← hA]
    exact List.drop_left A A
  simp [processTrack, runChunks, stepChunk, headPart, optTruthy, hAne, hth, h2fb,
    htake, hdrop]

/-- Helper: the same three-full-chunk track processed with crossfade
disabled and no incoming tail writes all three chunks (trim-stable tail). -/
theorem processTrack_four_off (fb : ℕ) (hfb : 0 < fb) (th tt : List ℤ → List ℤ)
    (A : List ℤ) (hA : A.length = fb) (htt : tt A = A) :
    processTrack ⟨fb, false, th, tt⟩ [] [A, A, A, []] = (A ++ A ++ A, []) := by
  have hAne : A ≠ [] := by
    intro h
    rw [h] at hA
    simp at hA
    omega
  simp [processTrack, runChunks, stepChunk, tailPart, optTruthy, hA, hAne, htt]

/-- Helper: a two-full-chunk track processed with crossfade disabled and no
incoming tail writes both chunks directly. -/
theorem processTrack_three_off (fb : ℕ) (th tt : List ℤ → List ℤ) (A : List ℤ) :
    processTrack ⟨fb, false, th, tt⟩ [] [A, A, []] = (A ++ A, []) := by
  simp [processTrack, runChunks, stepChunk, optTruthy]

/-- Concrete fade-byte count of a session with default sample rate 96000
and `crossfade_duration = 0` (6-second default): `96000 * 4 * 2 * 6`. -/
def ceFadeBytes : ℕ := 4608000

/-- A full non-silent chunk of `fade_bytes` samples of value 1. -/
def ceChunk : List ℤ := List.replicate ceFadeBytes 1

/-- Two queue items: three full chunks then EOF, and two full chunks then
EOF. -/
def ceTracks : List (List (List ℤ)) := [[ceChunk, ceChunk, ceChunk, []], [ceChunk, ceChunk, []]]

/-- C4, counterexample: with `crossfade_duration = 0` but
`crossfade_enabled = true`, the mixer still performs crossfade mixing (with
the 6-second default fade length): on a concrete two-item queue its output
is one `fade_bytes` shorter than the plain concatenation of the
silence-trimmed items, so the two streams differ. -/
theorem zero_duration_still_mixes_counterexample :
    queueStreamOutput SettingVal.absent (SettingVal.int 0) true id id ceTracks ≠
      plainTrimmedConcat SettingVal.absent (SettingVal.int 0) id id ceTracks := by
  have hfb : (fadeBytesOf (negotiatedSampleRate SettingVal.absent) (SettingVal.int 0)).toNat
      = ceFadeBytes := by decide
  have hA : ceChunk.length = ceFadeBytes := by
    simp [ceChunk]
  have hfbpos : 0 < ceFadeBytes := by decide
  have h1 := processTrack_four_on ceFadeBytes hfbpos id id ceChunk hA (by simp)
  have h2 := processTrack_three_tail_on ceFadeBytes hfbpos id id ceChunk hA (by simp)
  have h3 : trimmedItemOutput ceFadeBytes id id [ceChunk, ceChunk, ceChunk, []] =
      ceChunk ++ ceChunk ++ ceChunk := by
    unfold trimmedItemOutput
    rw [processTrack_four_off ceFadeBytes hfbpos id id ceChunk hA (by simp)]
  have h4 : trimmedItemOutput ceFadeBytes id id [ceChunk, ceChunk, []] =
      ceChunk ++ ceChunk := by
    unfold trimmedItemOutput
    rw [processTrack_three_off]
  intro hEq
  have hlen := congrArg List.length hEq
  simp only [queueStreamOutput, plainTrimmedConcat, hfb, mixQueue, mixTracks, ceTracks,
    List.map_cons, List.map_nil, List.flatten_cons, List.flatten_nil, h1, h2, h3, h4] at hlen
  simp only [List.length_append, List.append_nil, crossfadePcm_length, hA, min_self,
    List.length_nil] at hlen
  simp only [ceFadeBytes] at hlen
  omega

end MusicAssistant
